import Mathlib

/-!
Verification of the media-asset management backend (FastAPI + Cosmos DB +
blob storage) against its natural-language specification.

The Python sources are shallowly embedded as executable Lean definitions:

* `database.py`   — the Cosmos containers become lists of records; each query
  method becomes a pure function over them.
* `routes_media.py` / `routes_auth.py` — each route handler becomes a pure
  function from the request data (and the relevant store states) to an HTTP
  outcome plus the successor store states.
* External collaborators that are not part of the repository sources
  (`storage.py`, `utils.py`, `auth.py`) are modelled from the specification,
  each marked `Modelled from the spec:` in its doc comment.

Timestamps (`datetime.utcnow().isoformat()`) are modelled as natural numbers
drawn from a monotone clock; UUIDs (`uuid.uuid4()`) are modelled as natural
numbers drawn from a fresh-id supply.
-/

namespace Zjw

/-! ## Character and string helpers

SQL `LOWER`/`CONTAINS` and Python `str.replace` / `str.split` are modelled
over `List Char`. -/

/-- ASCII lower-casing of one character, as SQL `LOWER` acts on each
character of an ASCII string. -/
def lowerChar (c : Char) : Char :=
  if 'A' ≤ c && c ≤ 'Z' then Char.ofNat (c.toNat + 32) else c

/-- SQL `LOWER` on a character list. -/
def sqlLower (s : List Char) : List Char := s.map lowerChar

/-- Contiguous-substring test: does `needle` occur inside `hay`?  This is the
meaning of SQL `CONTAINS(hay, needle)`. -/
def isSubL (needle : List Char) : List Char → Bool
  | [] => needle.isEmpty
  | c :: rest => needle.isPrefixOf (c :: rest) || isSubL needle rest

/-- Fuel-driven core of Python `str.replace` for a nonempty pattern: scan left
to right, replacing every non-overlapping occurrence of `pat` by `rep`.  The
fuel only bounds the recursion depth; any `fuel ≥ s.length` computes the full
replacement. -/
def replaceFuel (pat rep : List Char) : Nat → List Char → List Char
  | _, [] => []
  | 0, s => s
  | fuel + 1, c :: rest =>
    if pat.isPrefixOf (c :: rest) then
      rep ++ replaceFuel pat rep fuel ((c :: rest).drop pat.length)
    else
      c :: replaceFuel pat rep fuel rest

/-- Python `s.replace(pat, rep)` (all occurrences, leftmost, non-overlapping;
for the empty pattern Python splices `rep` around every character). -/
def pyReplace (s pat rep : List Char) : List Char :=
  if pat.isEmpty then rep ++ s.flatMap (fun c => c :: rep)
  else replaceFuel pat rep s.length s

/-- Python `s.split("/")`: split at every slash, keeping empty segments. -/
def splitSlash : List Char → List (List Char)
  | [] => [[]]
  | c :: rest =>
    match splitSlash rest with
    | [] => [[]]
    | seg :: segs => if c = '/' then [] :: seg :: segs else (c :: seg) :: segs

/-- Python `s.split("/")[-1]`, the base component of a slash-separated path
(`routes_media.py:274`). -/
def lastComponent (s : List Char) : List Char := (splitSlash s).getLastD []

/-! ## Data model

`MediaRecord` mirrors the document persisted by `process_file_upload`
(`routes_media.py:75-89`) and validated by `models.ContentRecord`. -/

/-- One document of the `media` container (partition key path `/userId`,
`database.py:35-39`).  `id` is a UUID modelled as a `Nat`; the two timestamps
are ISO strings modelled as `Nat` clock readings. -/
structure MediaRecord where
  id : Nat
  mediaType : String
  userId : String
  originalFileName : String
  fileName : String
  mimeType : String
  fileSize : Nat
  description : Option String
  blobUrl : String
  tags : Option (List String)
  thumbnailUrl : Option String
  uploadedAt : Nat
  updatedAt : Nat
deriving Repr, DecidableEq

/-- One document of the `users` container (`routes_auth.py:38-44`). -/
structure UserRecord where
  id : String
  email : String
  username : String
  hashedPassword : String
  createdAt : Nat
deriving Repr, DecidableEq

/-! ## MetadataRepository: `database.py` -/

/-- `CosmosDBClient.get_media_by_id` (`database.py:91-99`):
`read_item(partition_key=owner_id, item=record_id)` returns the document with
this id inside the owner partition, or `None` on `CosmosResourceNotFoundError`.
Because the partition key path is `/userId`, a matching document must satisfy
both `id = record_id` and `userId = owner_id`. -/
def get_media_by_id (db : List MediaRecord) (recordId : Nat) (ownerId : String) :
    Option MediaRecord :=
  db.find? (fun r => r.id == recordId && r.userId == ownerId)

/-- Ordering used by `ORDER BY m.uploadedAt DESC`. -/
def byUploadedDesc (a b : MediaRecord) : Prop := b.uploadedAt ≤ a.uploadedAt

instance : DecidableRel byUploadedDesc := fun a b => Nat.decLe b.uploadedAt a.uploadedAt

instance : IsTotal MediaRecord byUploadedDesc :=
  ⟨fun a b => Nat.le_total b.uploadedAt a.uploadedAt⟩

instance : IsTrans MediaRecord byUploadedDesc :=
  ⟨fun _ _ _ h1 h2 => le_trans h2 h1⟩

/-- The result-set ordering `ORDER BY m.uploadedAt DESC`. -/
def orderByUploadedDesc (l : List MediaRecord) : List MediaRecord :=
  List.insertionSort byUploadedDesc l

/-- Filter predicate of the `get_user_media` SQL query (`database.py:111-116`):
`m.userId = @userId`, plus `m.mediaType = @mediaType` when a type filter is
supplied. -/
def mediaFilter (userId : String) (mediaType : Option String) (r : MediaRecord) : Bool :=
  r.userId == userId &&
    (match mediaType with
     | none => true
     | some t => r.mediaType == t)

/-- `CosmosDBClient.get_user_media` (`database.py:101-141`): the count query
runs `SELECT VALUE COUNT(1)` over the same filter predicates, then the item
query appends `OFFSET (page-1)*page_size LIMIT page_size` to the ordered
query.  Returns `(records, total_records)`. -/
def get_user_media (db : List MediaRecord) (userId : String) (page pageSize : Nat)
    (mediaType : Option String) : List MediaRecord × Nat :=
  let matching := db.filter (mediaFilter userId mediaType)
  let ordered := orderByUploadedDesc matching
  let skipCount := (page - 1) * pageSize
  ((ordered.drop skipCount).take pageSize, matching.length)

/-- Filter predicate of the `search_media` SQL query (`database.py:179-188`):
`m.userId = @userId AND (CONTAINS(LOWER(m.originalFileName), LOWER(@searchTerm))
OR CONTAINS(LOWER(m.description), LOWER(@searchTerm))
OR ARRAY_CONTAINS(m.tags, @searchTerm, true))`.
A `null`/absent `description` or `tags` makes its disjunct undefined, hence
non-matching.  `ARRAY_CONTAINS` compares strings exactly and case-sensitively
(its third argument only enables partial matching of object fragments). -/
def searchMatches (userId term : String) (r : MediaRecord) : Bool :=
  r.userId == userId &&
    (isSubL (sqlLower term.data) (sqlLower r.originalFileName.data) ||
      (match r.description with
       | some d => isSubL (sqlLower term.data) (sqlLower d.data)
       | none => false) ||
      (match r.tags with
       | some ts => ts.contains term
       | none => false))

/-- `CosmosDBClient.search_media` (`database.py:173-217`): count over the
search predicate, then the `OFFSET`/`LIMIT` window of the ordered matches. -/
def search_media (db : List MediaRecord) (userId term : String) (page pageSize : Nat) :
    List MediaRecord × Nat :=
  let matching := db.filter (searchMatches userId term)
  let ordered := orderByUploadedDesc matching
  let skipCount := (page - 1) * pageSize
  ((ordered.drop skipCount).take pageSize, matching.length)

/-- The `modifications` dict passed to `update_media`
(`routes_media.py:218-224`): `updatedAt` is always present; `description` and
`tags` are present exactly when the corresponding patch field was not `None`. -/
structure UpdatePayload where
  updatedAt : Nat
  description : Option String
  tags : Option (List String)
deriving Repr, DecidableEq

/-- Python `current_record.update(modifications)` (`database.py:152`): keys
present in the payload overwrite the record's fields, all other fields are
kept. -/
def applyUpdate (r : MediaRecord) (m : UpdatePayload) : MediaRecord :=
  { r with
    updatedAt := m.updatedAt
    description := match m.description with
      | some d => some d
      | none => r.description
    tags := match m.tags with
      | some ts => some ts
      | none => r.tags }

/-- `CosmosDBClient.update_media` (`database.py:143-160`): read-modify-write.
Fetch the current record in the owner partition, raise
`ValueError("Media not found")` if absent, merge the modifications and
`replace_item` the document (same id, same partition). -/
def update_media (db : List MediaRecord) (recordId : Nat) (ownerId : String)
    (modifications : UpdatePayload) : Except String (MediaRecord × List MediaRecord) :=
  match get_media_by_id db recordId ownerId with
  | none => .error ("Media not found")
  | some currentRecord =>
    let merged := applyUpdate currentRecord modifications
    .ok (merged,
      db.map (fun x => if x.id == recordId && x.userId == ownerId then merged else x))

/-- `CosmosDBClient.delete_media` (`database.py:162-171`): `delete_item` in the
owner partition; `CosmosResourceNotFoundError` yields `False` instead of an
error. -/
def delete_media (db : List MediaRecord) (recordId : Nat) (ownerId : String) :
    Bool × List MediaRecord :=
  match get_media_by_id db recordId ownerId with
  | none => (false, db)
  | some _ => (true, db.filter (fun r => !(r.id == recordId && r.userId == ownerId)))

/-- `CosmosDBClient.get_user_by_email` (`database.py:57-70`):
`SELECT * FROM users u WHERE u.email = @email`, first result or `None`. -/
def get_user_by_email (users : List UserRecord) (emailAddress : String) :
    Option UserRecord :=
  users.find? (fun u => u.email == emailAddress)

/-! ## External collaborators not under the repository sources

`storage.py` (the `blob_storage` object) and `utils.py` (validators and the
thumbnail generator) are imported by the routes but are not part of the given
sources; they are modelled from the specification. -/

/-- Modelled from the spec: `blob_storage.upload_file` of the missing
`storage.py`.  Spec §3 requires the stored blob name to be deterministically
derivable from `(userId, originalFileName)` and to have the filename as its
base component, so the key is `ownerId/filename`. -/
def blobKey (ownerId filename : String) : String := ownerId ++ "/" ++ filename

/-- Modelled from the spec: the access URL returned by
`blob_storage.upload_file` for a stored blob key. -/
def blobUrlOf (key : String) : String := "https://blob.example/" ++ key

/-- Modelled from the spec: `utils.validate_file_type` of the missing
`utils.py`.  Spec §4.1: a fixed allow-list maps the declared MIME type to
`image`/`video`; anything else fails `UnsupportedType` (HTTP 400). -/
def allowedTypes : List (String × String) :=
  [("image/jpeg", "image"), ("image/png", "image"), ("image/gif", "image"),
   ("video/mp4", "video"), ("video/quicktime", "video")]

/-- Modelled from the spec: the allow-list lookup of `validate_file_type`;
`none` means the route fails with HTTP 400 before any side effect. -/
def validate_file_type (mime : String) : Option String :=
  (allowedTypes.find? (fun p => p.1 == mime)).map (fun p => p.2)

/-- Modelled from the spec: the configured maximum upload size in bytes
(spec §8 uses a 500MB limit). -/
def max_file_size : Nat := 524288000

/-- Modelled from the spec: `utils.validate_file_size`; `none` means the route
fails with HTTP 400 (`FileTooLarge`) before any side effect. -/
def validate_file_size (size : Nat) : Option Nat :=
  if size ≤ max_file_size then some size else none

/-! ## MediaService routes: `routes_media.py` -/

/-- A JSON value as returned by `json.loads`.  Arrays are specialised to
string arrays — the only array shape the record schema stores as `tags`;
every non-array constructor trips the `isinstance(parsed_tags, list)` check
exactly like a general JSON value would. -/
inductive Json
  | null
  | boolVal (b : Bool)
  | numVal (n : Int)
  | strVal (s : String)
  | arrVal (xs : List String)
  | objVal
deriving Repr, DecidableEq

/-- Outcome of `json.loads(file_tags)`: either `json.JSONDecodeError` or a
parsed value. -/
inductive TagsParse
  | decodeError
  | value (j : Json)
deriving Repr, DecidableEq

/-- Tags processing of `process_file_upload` (`routes_media.py:33-44`).
An empty or missing `file_tags` form field is falsy and skipped.  A decode
error is turned into HTTP 400 ("Invalid tags format. Must be a JSON array.").
A parsed non-list raises `ValueError("Tags must be an array")`, which the
`except json.JSONDecodeError` clause does not catch: it escapes to the
handler's generic `except Exception` clause (`routes_media.py:99-104`) and
becomes HTTP 500. -/
def parseTags : Option TagsParse → Except Nat (Option (List String))
  | none => .ok none
  | some .decodeError => .error 400
  | some (.value j) =>
    match j with
    | .arrVal xs => .ok (some xs)
    | _ => .error 500

/-- Outcome of one `POST /media` request: HTTP status, the returned record
(on 201), the media container afterwards, and the blob keys written during
the request. -/
structure UploadResult where
  status : Nat
  record : Option MediaRecord
  db : List MediaRecord
  blobs : List String
deriving Repr, DecidableEq

/-- `process_file_upload` (`routes_media.py:18-104`).  Validation (type, then
size, then tags) precedes every write.  The content blob is stored under
`blobKey`; for images with a generated preview a thumbnail blob is stored
under the `thumb_`-prefixed filename (`routes_media.py:61-68`), its upload
failure being swallowed with a warning.  The record is then persisted with a
fresh `uuid4` id (`freshId`) and one timestamp for both `uploadedAt` and
`updatedAt` (`now`).  `thumbData` models `generate_thumbnail` returning data;
`thumbUploadOk` models the thumbnail blob upload not raising. -/
def process_file_upload (db : List MediaRecord) (currentUser filename mime : String)
    (size : Nat) (fileDescription : Option String) (fileTags : Option TagsParse)
    (thumbData thumbUploadOk : Bool) (freshId now : Nat) : UploadResult :=
  match validate_file_type mime with
  | none => { status := 400, record := none, db := db, blobs := [] }
  | some contentType =>
    match validate_file_size size with
    | none => { status := 400, record := none, db := db, blobs := [] }
    | some sizeInBytes =>
      match parseTags fileTags with
      | .error s => { status := s, record := none, db := db, blobs := [] }
      | .ok parsedTags =>
        let storedName := blobKey currentUser filename
        let accessUrl := blobUrlOf storedName
        let thumbStep : Option String × List String :=
          if contentType == "image" && thumbData then
            if thumbUploadOk then
              (some (blobUrlOf (blobKey currentUser ("thumb_" ++ filename))),
                [storedName, blobKey currentUser ("thumb_" ++ filename)])
            else (none, [storedName])
          else (none, [storedName])
        let mediaRecord : MediaRecord :=
          { id := freshId
            mediaType := contentType
            userId := currentUser
            originalFileName := filename
            fileName := storedName
            mimeType := mime
            fileSize := sizeInBytes
            description := fileDescription
            blobUrl := accessUrl
            tags := parsedTags
            thumbnailUrl := thumbStep.1
            uploadedAt := now
            updatedAt := now }
        { status := 201, record := some mediaRecord,
          db := db ++ [mediaRecord], blobs := thumbStep.2 }

/-- An HTTP error response raised by a route handler. -/
structure HttpError where
  status : Nat
  detail : String
deriving Repr, DecidableEq

/-- `fetch_media_details` (`routes_media.py:161-191`): partition-scoped
lookup, 404 if absent, 403 if the ownership comparison fails.  The 403
message spells out the source's contraction ("don't" → "do not"). -/
def fetch_media_details (db : List MediaRecord) (mediaId : Nat) (ownerId : String) :
    Except HttpError MediaRecord :=
  match get_media_by_id db mediaId ownerId with
  | none => .error { status := 404, detail := "Media not found" }
  | some mediaItem =>
    if mediaItem.userId ≠ ownerId then
      .error { status := 403, detail := "You do not have permission to access this media" }
    else
      .ok mediaItem

/-- The `ContentModification` request body (`models.py:52`): both fields
optional. -/
structure ContentModification where
  description : Option String
  tags : Option (List String)
deriving Repr, DecidableEq

/-- `modify_media_info` (`routes_media.py:194-242`): lookup and ownership
gate as in `fetch_media_details`, then an update payload carrying a fresh
`updatedAt` plus the supplied fields is merged by `update_media`; a
`ValueError` from the repository is mapped to HTTP 404. -/
def modify_media_info (db : List MediaRecord) (mediaId : Nat)
    (metadataUpdates : ContentModification) (ownerId : String) (now : Nat) :
    Except HttpError (MediaRecord × List MediaRecord) :=
  match get_media_by_id db mediaId ownerId with
  | none => .error { status := 404, detail := "Media not found" }
  | some existingMedia =>
    if existingMedia.userId ≠ ownerId then
      .error { status := 403, detail := "You do not have permission to update this media" }
    else
      match update_media db mediaId ownerId
          { updatedAt := now
            description := metadataUpdates.description
            tags := metadataUpdates.tags } with
      | .error msg => .error { status := 404, detail := msg }
      | .ok (modifiedMedia, db2) => .ok (modifiedMedia, db2)

/-- Failure injection for the two blob deletions of `remove_media_file`:
does `blob_storage.delete_file` raise for the content blob / for the
thumbnail blob? -/
structure DeleteEnv where
  contentDeleteFails : Bool
  thumbDeleteFails : Bool
deriving Repr, DecidableEq

/-- Thumbnail blob key recomputed at delete time (`routes_media.py:271-279`):
take the base component of `originalFileName` and substitute its
`thumb_`-prefixed form for it inside the stored `fileName` (Python
`str.replace`, i.e. every occurrence). -/
def thumbIdentifier (r : MediaRecord) : String :=
  let originalFilename := lastComponent r.originalFileName.data
  String.mk (pyReplace r.fileName.data originalFilename
    (("thumb_").data ++ originalFilename))

/-- `remove_media_file` (`routes_media.py:245-295`): lookup and ownership
gate, then the content blob delete — whose exception propagates to the
generic handler as HTTP 500 with no metadata change — then, when a
`thumbnailUrl` is present, the recomputed thumbnail blob delete inside its
own `try`, whose failure is only logged, and finally the metadata delete.
Returns the HTTP status and the media container afterwards. -/
def remove_media_file (db : List MediaRecord) (mediaId : Nat) (ownerId : String)
    (env : DeleteEnv) : Nat × List MediaRecord :=
  match get_media_by_id db mediaId ownerId with
  | none => (404, db)
  | some mediaRecord =>
    if mediaRecord.userId ≠ ownerId then
      (403, db)
    else if env.contentDeleteFails then
      (500, db)
    else
      -- the thumbnail branch only attempts `delete_file (thumbIdentifier
      -- mediaRecord)` when `mediaRecord.thumbnailUrl` is set, and swallows
      -- `env.thumbDeleteFails`; it affects neither status nor metadata
      (204, (delete_media db mediaId ownerId).2)

/-! ## Auth routes: `routes_auth.py` -/

/-- Successful login payload (`routes_auth.py:104-117`): profile fields plus
the issued JWT. -/
structure AuthSuccess where
  userId : String
  email : String
  username : String
  createdAt : Nat
  token : String
deriving Repr, DecidableEq

/-- `authenticate_user` (`routes_auth.py:80-126`).  `verifyPassword` models
`auth.verify_password` and `mkToken` models `auth.create_access_token`, both
from the missing `auth.py` — per spec §1 an opaque `AuthService` capability.
An unknown email and a failed password check raise the same
`HTTPException(401, "Invalid email or password")`. -/
def authenticate_user (users : List UserRecord)
    (verifyPassword : String → String → Bool) (mkToken : String → String → String)
    (email password : String) : Except HttpError AuthSuccess :=
  match get_user_by_email users email with
  | none => .error { status := 401, detail := "Invalid email or password" }
  | some account =>
    if !(verifyPassword password account.hashedPassword) then
      .error { status := 401, detail := "Invalid email or password" }
    else
      .ok { userId := account.id
            email := account.email
            username := account.username
            createdAt := account.createdAt
            token := mkToken account.email account.id }

/-! ## System evolution

The media container together with the fresh-id supply (`uuid.uuid4`) and the
monotone wall clock (`datetime.utcnow`).  `created` is the ghost log of every
id the supply has handed to a persisted record. -/

/-- Global state: media container, fresh-id supply, clock, and the ghost log
of assigned record ids. -/
structure Sys where
  db : List MediaRecord
  nextId : Nat
  clock : Nat
  created : List Nat
deriving Repr, DecidableEq

/-- The empty initial state. -/
def initSys : Sys := { db := [], nextId := 0, clock := 0, created := [] }

/-- One `POST /media` request against the state: the handler runs with the
current clock reading and the next fresh id. -/
def stepUpload (s : Sys) (currentUser filename mime : String) (size : Nat)
    (fileDescription : Option String) (fileTags : Option TagsParse)
    (thumbData thumbUploadOk : Bool) : Sys :=
  let res := process_file_upload s.db currentUser filename mime size
    fileDescription fileTags thumbData thumbUploadOk s.nextId s.clock
  { db := res.db
    nextId := s.nextId + 1
    clock := s.clock
    created :=
      match res.record with
      | some r => s.created ++ [r.id]
      | none => s.created }

/-- One `PUT /media/{id}` request against the state. -/
def stepUpdate (s : Sys) (mediaId : Nat) (metadataUpdates : ContentModification)
    (ownerId : String) : Sys :=
  match modify_media_info s.db mediaId metadataUpdates ownerId s.clock with
  | .ok (_, db2) => { s with db := db2 }
  | .error _ => s

/-- One `DELETE /media/{id}` request against the state. -/
def stepDelete (s : Sys) (mediaId : Nat) (ownerId : String) (env : DeleteEnv) : Sys :=
  { s with db := (remove_media_file s.db mediaId ownerId env).2 }

/-- A single transition: one media request, or the wall clock advancing. -/
inductive Step : Sys → Sys → Prop
  | upload (s : Sys) (currentUser filename mime : String) (size : Nat)
      (fileDescription : Option String) (fileTags : Option TagsParse)
      (thumbData thumbUploadOk : Bool) :
      Step s (stepUpload s currentUser filename mime size fileDescription fileTags
        thumbData thumbUploadOk)
  | update (s : Sys) (mediaId : Nat) (metadataUpdates : ContentModification)
      (ownerId : String) :
      Step s (stepUpdate s mediaId metadataUpdates ownerId)
  | delete (s : Sys) (mediaId : Nat) (ownerId : String) (env : DeleteEnv) :
      Step s (stepDelete s mediaId ownerId env)
  | tick (s : Sys) (c : Nat) (h : s.clock ≤ c) :
      Step s { s with clock := c }

/-- States reachable from the empty initial state. -/
inductive Reachable : Sys → Prop
  | init : Reachable initSys
  | step {s s2 : Sys} : Reachable s → Step s s2 → Reachable s2

/-! ## General lemmas -/

instance {ε α : Type} [DecidableEq ε] [DecidableEq α] : DecidableEq (Except ε α) := fun x y =>
  match x, y with
  | .error a, .error b =>
    if h : a = b then isTrue (by rw [h]) else isFalse (fun hc => h (by injection hc))
  | .ok a, .ok b =>
    if h : a = b then isTrue (by rw [h]) else isFalse (fun hc => h (by injection hc))
  | .error _, .ok _ => isFalse (fun hc => by injection hc)
  | .ok _, .error _ => isFalse (fun hc => by injection hc)

/-- A found media document is in the container, has the requested id, and
lies in the owner partition. -/
theorem get_media_by_id_some {db : List MediaRecord} {recordId : Nat} {ownerId : String}
    {r : MediaRecord} (h : get_media_by_id db recordId ownerId = some r) :
    r ∈ db ∧ r.id = recordId ∧ r.userId = ownerId := by
  unfold get_media_by_id at h
  have hm := List.mem_of_find?_eq_some h
  have hp := List.find?_some h
  simp only [Bool.and_eq_true, beq_iff_eq] at hp
  exact ⟨hm, hp.1, hp.2⟩

/-- A partition-scoped lookup misses when no document with the requested id
lies in the owner partition. -/
theorem get_media_by_id_none {db : List MediaRecord} {recordId : Nat} {ownerId : String}
    (h : ∀ x ∈ db, x.id = recordId → x.userId ≠ ownerId) :
    get_media_by_id db recordId ownerId = none := by
  unfold get_media_by_id
  rw [List.find?_eq_none]
  intro x hx
  simp only [Bool.and_eq_true, beq_iff_eq, not_and]
  exact h x hx

/-- Joining the `OFFSET i*s LIMIT s` windows for `i = 0 .. ceil(len/s) - 1`
reassembles the whole list. -/
theorem chunksJoin {α : Type} (s : Nat) (hs : 1 ≤ s) :
    ∀ (fuel : Nat) (l : List α), l.length ≤ fuel →
      (List.range ((l.length + s - 1) / s)).flatMap (fun i => (l.drop (i * s)).take s) = l := by
  intro fuel
  induction fuel with
  | zero =>
    intro l hl
    have h0 : l = [] := List.eq_nil_of_length_eq_zero (Nat.le_zero.mp hl)
    subst h0
    have hdiv : (List.length ([] : List α) + s - 1) / s = 0 := Nat.div_eq_of_lt (by simp; omega)
    rw [hdiv]
    simp
  | succ n ih =>
    intro l hl
    rcases l with _ | ⟨a, t⟩
    · have hdiv : (List.length ([] : List α) + s - 1) / s = 0 := Nat.div_eq_of_lt (by simp; omega)
      rw [hdiv]
      simp
    · by_cases hcase : (a :: t).length ≤ s
      · have hdiv : ((a :: t).length + s - 1) / s = 1 := by
          apply Nat.div_eq_of_lt_le
          · simp only [List.length_cons, Nat.one_mul]
            omega
          · simp only [List.length_cons] at hcase ⊢
            omega
        have hr1 : List.range 1 = [0] := rfl
        rw [hdiv, hr1]
        simp only [List.flatMap_cons, List.flatMap_nil, Nat.zero_mul, List.drop_zero,
          List.append_nil]
        exact List.take_of_length_le hcase
      · push_neg at hcase
        have hs0 : 0 < s := hs
        have hnum : (a :: t).length + s - 1 = ((a :: t).length - s + s - 1) + s := by
          simp only [List.length_cons] at hcase ⊢
          omega
        have hdiv : ((a :: t).length + s - 1) / s = (((a :: t).drop s).length + s - 1) / s + 1 := by
          rw [List.length_drop, hnum, Nat.add_div_right _ hs0]
        have hfun : (fun i => ((a :: t).drop (Nat.succ i * s)).take s)
            = (fun i => (((a :: t).drop s).drop (i * s)).take s) := by
          funext i
          rw [List.drop_drop, Nat.succ_mul, Nat.add_comm]
        have hlen : ((a :: t).drop s).length ≤ n := by
          rw [List.length_drop]
          simp only [List.length_cons] at hl ⊢
          omega
        rw [hdiv, List.range_succ_eq_map, List.flatMap_cons, List.flatMap_map]
        show ((a :: t).drop (0 * s)).take s ++
            (List.range ((((a :: t).drop s).length + s - 1) / s)).flatMap
              (fun i => ((a :: t).drop (Nat.succ i * s)).take s) = a :: t
        rw [hfun, ih ((a :: t).drop s) hlen, Nat.zero_mul, List.drop_zero,
          List.take_append_drop]

/-- `isSubL` decides contiguous-substring containment. -/
theorem isSubL_iff (needle : List Char) :
    ∀ hay : List Char, isSubL needle hay = true ↔ needle <:+: hay := by
  intro hay
  induction hay with
  | nil => simp [isSubL, List.isEmpty_iff, List.infix_nil]
  | cons c rest ih =>
    simp [isSubL, Bool.or_eq_true, ih, List.infix_cons_iff, List.isPrefixOf_iff_prefix]

/-- `ORDER BY` does not change the number of rows. -/
theorem length_orderByUploadedDesc (l : List MediaRecord) :
    (orderByUploadedDesc l).length = l.length :=
  List.length_insertionSort byUploadedDesc l

/-- `ORDER BY` does not change the set of rows. -/
theorem mem_orderByUploadedDesc {r : MediaRecord} {l : List MediaRecord} :
    r ∈ orderByUploadedDesc l ↔ r ∈ l :=
  (List.perm_insertionSort byUploadedDesc l).mem_iff

/-- The search predicate, read as a proposition: the term occurs
case-insensitively inside the file name, or case-insensitively inside a
present description, or verbatim among present tags. -/
theorem searchMatches_iff (userId term : String) (r : MediaRecord) :
    searchMatches userId term r = true ↔
      r.userId = userId ∧
        (sqlLower term.data <:+: sqlLower r.originalFileName.data ∨
          (∃ d, r.description = some d ∧ sqlLower term.data <:+: sqlLower d.data) ∨
          (∃ ts, r.tags = some ts ∧ term ∈ ts)) := by
  unfold searchMatches
  rcases hd : r.description with _ | d <;> rcases ht : r.tags with _ | ts <;>
    simp [isSubL_iff, hd, ht, or_assoc]

/-- Every `POST /media` outcome: either a pre-persistence failure (no record,
no container change, no blob write), or a 201 with the record appended, its id
the fresh one and both timestamps the current clock reading. -/
theorem process_file_upload_cases (db : List MediaRecord) (currentUser filename mime : String)
    (size : Nat) (fileDescription : Option String) (fileTags : Option TagsParse)
    (thumbData thumbUploadOk : Bool) (freshId now : Nat) :
    ((process_file_upload db currentUser filename mime size fileDescription fileTags
        thumbData thumbUploadOk freshId now).record = none ∧
      (process_file_upload db currentUser filename mime size fileDescription fileTags
        thumbData thumbUploadOk freshId now).db = db ∧
      (process_file_upload db currentUser filename mime size fileDescription fileTags
        thumbData thumbUploadOk freshId now).blobs = []) ∨
    (∃ r, (process_file_upload db currentUser filename mime size fileDescription fileTags
        thumbData thumbUploadOk freshId now).record = some r ∧
      (process_file_upload db currentUser filename mime size fileDescription fileTags
        thumbData thumbUploadOk freshId now).status = 201 ∧
      (process_file_upload db currentUser filename mime size fileDescription fileTags
        thumbData thumbUploadOk freshId now).db = db ++ [r] ∧
      r.id = freshId ∧ r.uploadedAt = now ∧ r.updatedAt = now ∧ r.userId = currentUser) := by
  unfold process_file_upload
  cases hvt : validate_file_type mime with
  | none => exact Or.inl ⟨rfl, rfl, rfl⟩
  | some contentType =>
    cases hvs : validate_file_size size with
    | none => exact Or.inl ⟨rfl, rfl, rfl⟩
    | some sizeInBytes =>
      cases hpt : parseTags fileTags with
      | error s => exact Or.inl ⟨rfl, rfl, rfl⟩
      | ok parsedTags => exact Or.inr ⟨_, rfl, rfl, rfl, rfl, rfl, rfl, rfl⟩

/-- A successful `PUT /media/{id}` merged the payload into the fetched record
and rewrote exactly that document in the container. -/
theorem modify_media_info_ok {db : List MediaRecord} {mediaId : Nat}
    {mu : ContentModification} {ownerId : String} {now : Nat}
    {r2 : MediaRecord} {db2 : List MediaRecord}
    (h : modify_media_info db mediaId mu ownerId now = .ok (r2, db2)) :
    ∃ cur, get_media_by_id db mediaId ownerId = some cur ∧
      r2 = applyUpdate cur { updatedAt := now, description := mu.description, tags := mu.tags } ∧
      db2 = db.map (fun x => if x.id == mediaId && x.userId == ownerId then r2 else x) := by
  unfold modify_media_info at h
  cases hg : get_media_by_id db mediaId ownerId with
  | none => rw [hg] at h; cases h
  | some cur =>
    rw [hg] at h
    dsimp only at h
    by_cases ho : cur.userId ≠ ownerId
    · rw [if_pos ho] at h; cases h
    · rw [if_neg ho] at h
      unfold update_media at h
      rw [hg] at h
      dsimp only at h
      simp only [Except.ok.injEq, Prod.mk.injEq] at h
      refine ⟨cur, rfl, h.1.symm, ?_⟩
      rw [← h.2, h.1]

/-- `DELETE /media/{id}` leaves the container unchanged or removes exactly
the addressed document. -/
theorem remove_media_file_db_cases (db : List MediaRecord) (mediaId : Nat) (ownerId : String)
    (env : DeleteEnv) :
    (remove_media_file db mediaId ownerId env).2 = db ∨
      (remove_media_file db mediaId ownerId env).2 =
        db.filter (fun r => !(r.id == mediaId && r.userId == ownerId)) := by
  unfold remove_media_file delete_media
  cases hg : get_media_by_id db mediaId ownerId with
  | none => exact Or.inl rfl
  | some r =>
    dsimp only
    by_cases ho : r.userId ≠ ownerId
    · rw [if_pos ho]; exact Or.inl rfl
    · rw [if_neg ho]
      by_cases hc : env.contentDeleteFails
      · rw [if_pos hc]; exact Or.inl rfl
      · rw [if_neg hc]; exact Or.inr rfl

/-- Distinct container documents never share an id once the id column is
duplicate-free. -/
theorem mediaRecord_eq_of_id_eq {db : List MediaRecord}
    (hnd : (db.map (fun r => r.id)).Nodup) {x y : MediaRecord}
    (hx : x ∈ db) (hy : y ∈ db) (h : x.id = y.id) : x = y :=
  List.inj_on_of_nodup_map hnd hx hy h

/-- System invariant: every assigned id is below the supply, every stored
record's id was assigned, timestamps are orderly and bounded by the clock,
and ids in the container are duplicate-free. -/
def SysInv (s : Sys) : Prop :=
  (∀ i ∈ s.created, i < s.nextId) ∧
  (∀ r ∈ s.db, r.id ∈ s.created) ∧
  (∀ r ∈ s.db, r.uploadedAt ≤ r.updatedAt ∧ r.updatedAt ≤ s.clock) ∧
  (s.db.map (fun r => r.id)).Nodup

/-- The initial state satisfies the invariant. -/
theorem sysInv_init : SysInv initSys := by
  refine ⟨?_, ?_, ?_, ?_⟩ <;> simp [initSys]

/-- Every transition preserves the system invariant. -/
theorem sysInv_step {s s2 : Sys} (hInv : SysInv s) (hstep : Step s s2) : SysInv s2 := by
  obtain ⟨hcr, hdbc, htime, hnd⟩ := hInv
  cases hstep with
  | upload currentUser filename mime size fileDescription fileTags thumbData thumbUploadOk =>
    rcases process_file_upload_cases s.db currentUser filename mime size fileDescription
        fileTags thumbData thumbUploadOk s.nextId s.clock with
      ⟨hrec, hdb, _⟩ | ⟨r, hrec, _, hdb, hid, hup, hupd, _⟩
    · refine ⟨?_, ?_, ?_, ?_⟩ <;> simp only [stepUpload, hrec, hdb]
      · intro i hi; exact Nat.lt_succ_of_lt (hcr i hi)
      · exact hdbc
      · exact htime
      · exact hnd
    · refine ⟨?_, ?_, ?_, ?_⟩ <;> simp only [stepUpload, hrec, hdb]
      · intro i hi
        rcases List.mem_append.mp hi with h1 | h1
        · exact Nat.lt_succ_of_lt (hcr i h1)
        · simp only [List.mem_singleton] at h1
          rw [h1, hid]
          exact Nat.lt_succ_self _
      · intro x hx
        rcases List.mem_append.mp hx with h1 | h1
        · exact List.mem_append.mpr (Or.inl (hdbc x h1))
        · simp only [List.mem_singleton] at h1
          rw [h1]
          exact List.mem_append.mpr (Or.inr (by simp))
      · intro x hx
        rcases List.mem_append.mp hx with h1 | h1
        · exact htime x h1
        · simp only [List.mem_singleton] at h1
          rw [h1, hup, hupd]
          exact ⟨le_refl _, le_refl _⟩
      · rw [List.map_append, List.nodup_append]
        refine ⟨hnd, by simp, ?_⟩
        intro i hi1 hi2
        rcases List.mem_map.mp hi1 with ⟨x, hx, hxi⟩
        have hic : i ∈ s.created := hxi ▸ hdbc x hx
        have hlt := hcr i hic
        simp only [List.map_cons, List.map_nil, List.mem_singleton] at hi2
        rw [hi2, hid] at hlt
        exact absurd hlt (lt_irrefl _)
  | update mediaId metadataUpdates ownerId =>
    unfold stepUpdate
    cases hm : modify_media_info s.db mediaId metadataUpdates ownerId s.clock with
    | error e => exact ⟨hcr, hdbc, htime, hnd⟩
    | ok p =>
      obtain ⟨r2, db2⟩ := p
      obtain ⟨cur, hg, hr2, hdb2⟩ := modify_media_info_ok hm
      obtain ⟨hcurMem, hcurId, hcurOwn⟩ := get_media_by_id_some hg
      have hcurT := htime cur hcurMem
      have hids : db2.map (fun r => r.id) = s.db.map (fun r => r.id) := by
        rw [hdb2, List.map_map]
        apply List.map_congr_left
        intro x hx
        simp only [Function.comp_apply]
        by_cases hcond : (x.id == mediaId && x.userId == ownerId) = true
        · rw [if_pos hcond, hr2]
          simp only [applyUpdate]
          simp only [Bool.and_eq_true, beq_iff_eq] at hcond
          rw [hcurId, hcond.1]
        · rw [if_neg hcond]
      refine ⟨hcr, ?_, ?_, ?_⟩
      · intro x hx
        have hxm : x.id ∈ db2.map (fun r => r.id) := List.mem_map_of_mem _ hx
        rw [hids] at hxm
        rcases List.mem_map.mp hxm with ⟨y, hy, hyx⟩
        rw [← hyx]
        exact hdbc y hy
      · intro x hx
        rw [hdb2] at hx
        rcases List.mem_map.mp hx with ⟨y, hy, hyx⟩
        by_cases hcond : (y.id == mediaId && y.userId == ownerId) = true
        · rw [if_pos hcond] at hyx
          rw [← hyx, hr2]
          simp only [applyUpdate]
          exact ⟨le_trans hcurT.1 hcurT.2, le_refl _⟩
        · rw [if_neg hcond] at hyx
          rw [← hyx]
          exact htime y hy
      · rw [hids]
        exact hnd
  | delete mediaId ownerId env =>
    unfold stepDelete
    rcases remove_media_file_db_cases s.db mediaId ownerId env with h | h <;> rw [h]
    · exact ⟨hcr, hdbc, htime, hnd⟩
    · refine ⟨hcr, ?_, ?_, ?_⟩
      · intro x hx
        exact hdbc x (List.mem_of_mem_filter hx)
      · intro x hx
        exact htime x (List.mem_of_mem_filter hx)
      · exact List.Nodup.sublist (List.Sublist.map _ (List.filter_sublist s.db)) hnd
  | tick c hcl =>
    refine ⟨hcr, hdbc, ?_, hnd⟩
    intro x hx
    exact ⟨(htime x hx).1, le_trans (htime x hx).2 hcl⟩

/-- Every reachable state satisfies the invariant. -/
theorem reachable_sysInv {s : Sys} (h : Reachable s) : SysInv s := by
  induction h with
  | init => exact sysInv_init
  | step _ hst ih => exact sysInv_step ih hst

/-! ## Concrete data used by witnesses and counterexamples -/

/-- A stored image owned by `alice`. -/
def recA : MediaRecord :=
  { id := 1, mediaType := "image", userId := "alice", originalFileName := "pic.jpg",
    fileName := "alice/pic.jpg", mimeType := "image/jpeg", fileSize := 100,
    description := some ("sunset"), blobUrl := "https://blob.example/alice/pic.jpg",
    tags := some (["a", "b"]),
    thumbnailUrl := some ("https://blob.example/alice/thumb_pic.jpg"),
    uploadedAt := 5, updatedAt := 5 }

/-- A stored video owned by `alice`, uploaded later than `recA`. -/
def recB : MediaRecord :=
  { id := 2, mediaType := "video", userId := "alice", originalFileName := "clip.mp4",
    fileName := "alice/clip.mp4", mimeType := "video/mp4", fileSize := 200,
    description := none, blobUrl := "https://blob.example/alice/clip.mp4",
    tags := none, thumbnailUrl := none, uploadedAt := 7, updatedAt := 7 }

/-- A two-record media container. -/
def dbEx : List MediaRecord := [recA, recB]

/-! ## Claim C4 — listMedia pagination -/

/-- C4: for every owner, optional type filter, page `p ≥ 1` and page size
`s ∈ [1,100]`, `get_user_media` returns the items at positions
`[(p-1)*s, (p-1)*s + s)` of the filtered set ordered by `uploadedAt`
descending, returns as total the size of the full filtered set independently
of `p` and `s`, and the windows for `p = 1 .. ceil(N/s)` partition the
ordered result set with no overlaps or gaps (their concatenation in page
order is exactly the ordered result set). -/
theorem get_user_media_pagination (db : List MediaRecord) (userId : String)
    (mediaType : Option String) (s : Nat) (hs1 : 1 ≤ s) (hs100 : s ≤ 100) :
    (∀ p, 1 ≤ p →
      (get_user_media db userId p s mediaType).1 =
        ((orderByUploadedDesc (db.filter (mediaFilter userId mediaType))).drop
          ((p - 1) * s)).take s ∧
      (get_user_media db userId p s mediaType).2 =
        (db.filter (mediaFilter userId mediaType)).length) ∧
    List.Sorted byUploadedDesc
      (orderByUploadedDesc (db.filter (mediaFilter userId mediaType))) ∧
    (List.range (((db.filter (mediaFilter userId mediaType)).length + s - 1) / s)).flatMap
        (fun i => (get_user_media db userId (i + 1) s mediaType).1) =
      orderByUploadedDesc (db.filter (mediaFilter userId mediaType)) := by
  refine ⟨fun p hp => ⟨rfl, rfl⟩, List.sorted_insertionSort _ _, ?_⟩
  have hlen : (orderByUploadedDesc (db.filter (mediaFilter userId mediaType))).length
      = (db.filter (mediaFilter userId mediaType)).length := length_orderByUploadedDesc _
  have hj := chunksJoin s hs1
    (orderByUploadedDesc (db.filter (mediaFilter userId mediaType))).length
    (orderByUploadedDesc (db.filter (mediaFilter userId mediaType))) le_rfl
  rw [hlen] at hj
  exact hj

/-- Concrete instantiation of `get_user_media_pagination` at page size 1
over the two-record container. -/
theorem get_user_media_pagination_witness :
    (∀ p, 1 ≤ p →
      (get_user_media dbEx ("alice") p 1 none).1 =
        ((orderByUploadedDesc (dbEx.filter (mediaFilter ("alice") none))).drop
          ((p - 1) * 1)).take 1 ∧
      (get_user_media dbEx ("alice") p 1 none).2 =
        (dbEx.filter (mediaFilter ("alice") none)).length) ∧
    List.Sorted byUploadedDesc
      (orderByUploadedDesc (dbEx.filter (mediaFilter ("alice") none))) ∧
    (List.range (((dbEx.filter (mediaFilter ("alice") none)).length + 1 - 1) / 1)).flatMap
        (fun i => (get_user_media dbEx ("alice") (i + 1) 1 none).1) =
      orderByUploadedDesc (dbEx.filter (mediaFilter ("alice") none)) :=
  get_user_media_pagination dbEx ("alice") none 1 (by decide) (by decide)

/-! ## Claim C10 — pages beyond the end -/

/-- C10: when the window offset `(p-1)*s` is at or past the number of
matching records, both `get_user_media` and `search_media` succeed with an
empty item list and the full filtered count. -/
theorem page_beyond_range_empty (db : List MediaRecord) (userId term : String)
    (mediaType : Option String) (p s : Nat) (hp : 1 ≤ p) (hs : 1 ≤ s)
    (hlist : (db.filter (mediaFilter userId mediaType)).length ≤ (p - 1) * s)
    (hsearch : (db.filter (searchMatches userId term)).length ≤ (p - 1) * s) :
    get_user_media db userId p s mediaType =
      ([], (db.filter (mediaFilter userId mediaType)).length) ∧
    search_media db userId term p s =
      ([], (db.filter (searchMatches userId term)).length) := by
  constructor
  · have h1 : (orderByUploadedDesc (db.filter (mediaFilter userId mediaType))).drop
        ((p - 1) * s) = [] :=
      List.drop_eq_nil_of_le (by rw [length_orderByUploadedDesc]; exact hlist)
    simp only [get_user_media]
    rw [h1]
    simp
  · have h1 : (orderByUploadedDesc (db.filter (searchMatches userId term))).drop
        ((p - 1) * s) = [] :=
      List.drop_eq_nil_of_le (by rw [length_orderByUploadedDesc]; exact hsearch)
    simp only [search_media]
    rw [h1]
    simp

/-- Concrete instantiation of `page_beyond_range_empty`: page 5 of size 20
over the two-record container. -/
theorem page_beyond_range_empty_witness :
    get_user_media dbEx ("alice") 5 20 none =
      ([], (dbEx.filter (mediaFilter ("alice") none)).length) ∧
    search_media dbEx ("alice") ("zzz") 5 20 =
      ([], (dbEx.filter (searchMatches ("alice") ("zzz"))).length) :=
  page_beyond_range_empty dbEx ("alice") ("zzz") none 5 20 (by decide) (by decide)
    (by decide) (by decide)

/-! ## Claim C3 — search semantics (corrected: tag matching is case-sensitive) -/

/-- C3 (amended): `search_media` returns exactly the owner's records whose
file name or present description contains the term case-insensitively, or
whose tags contain the term verbatim — tag matching is case-sensitive, so a
record matching only with a different letter case in a tag is not returned.
Soundness: every returned item is such a record; the count is the number of
such records; completeness: every such record appears on some page. -/
theorem search_media_characterisation (db : List MediaRecord) (userId term : String)
    (p s : Nat) (hp : 1 ≤ p) (hs : 1 ≤ s) :
    (∀ r, r ∈ (search_media db userId term p s).1 →
      r ∈ db ∧ r.userId = userId ∧
        (sqlLower term.data <:+: sqlLower r.originalFileName.data ∨
          (∃ d, r.description = some d ∧ sqlLower term.data <:+: sqlLower d.data) ∨
          (∃ ts, r.tags = some ts ∧ term ∈ ts))) ∧
    (search_media db userId term p s).2 = (db.filter (searchMatches userId term)).length ∧
    (∀ r, r ∈ db → r.userId = userId →
      (sqlLower term.data <:+: sqlLower r.originalFileName.data ∨
        (∃ d, r.description = some d ∧ sqlLower term.data <:+: sqlLower d.data) ∨
        (∃ ts, r.tags = some ts ∧ term ∈ ts)) →
      ∃ q, r ∈ (search_media db userId term q s).1) := by
  refine ⟨?_, rfl, ?_⟩
  · intro r hr
    have hr1 : r ∈ (orderByUploadedDesc (db.filter (searchMatches userId term))).drop
        ((p - 1) * s) := (List.take_sublist _ _).subset hr
    have hr2 : r ∈ orderByUploadedDesc (db.filter (searchMatches userId term)) :=
      (List.drop_sublist _ _).subset hr1
    have hr3 : r ∈ db.filter (searchMatches userId term) := mem_orderByUploadedDesc.mp hr2
    obtain ⟨hrdb, hrp⟩ := List.mem_filter.mp hr3
    obtain ⟨hown, hcond⟩ := (searchMatches_iff userId term r).mp hrp
    exact ⟨hrdb, hown, hcond⟩
  · intro r hrdb hown hcond
    have hrp : searchMatches userId term r = true :=
      (searchMatches_iff userId term r).mpr ⟨hown, hcond⟩
    have hr3 : r ∈ db.filter (searchMatches userId term) :=
      List.mem_filter.mpr ⟨hrdb, hrp⟩
    have hr2 : r ∈ orderByUploadedDesc (db.filter (searchMatches userId term)) :=
      mem_orderByUploadedDesc.mpr hr3
    have hj := chunksJoin s hs
      (orderByUploadedDesc (db.filter (searchMatches userId term))).length
      (orderByUploadedDesc (db.filter (searchMatches userId term))) le_rfl
    rw [← hj] at hr2
    rcases List.mem_flatMap.mp hr2 with ⟨i, _, hi2⟩
    exact ⟨i + 1, hi2⟩

/-- Concrete instantiation of `search_media_characterisation` over the
two-record container and the term `sun`. -/
theorem search_media_characterisation_witness :
    (∀ r, r ∈ (search_media dbEx ("alice") ("sun") 1 20).1 →
      r ∈ dbEx ∧ r.userId = "alice" ∧
        (sqlLower (("sun").data) <:+: sqlLower r.originalFileName.data ∨
          (∃ d, r.description = some d ∧ sqlLower (("sun").data) <:+: sqlLower d.data) ∨
          (∃ ts, r.tags = some ts ∧ ("sun" : String) ∈ ts))) ∧
    (search_media dbEx ("alice") ("sun") 1 20).2 =
      (dbEx.filter (searchMatches ("alice") ("sun"))).length ∧
    (∀ r, r ∈ dbEx → r.userId = "alice" →
      (sqlLower (("sun").data) <:+: sqlLower r.originalFileName.data ∨
        (∃ d, r.description = some d ∧ sqlLower (("sun").data) <:+: sqlLower d.data) ∨
        (∃ ts, r.tags = some ts ∧ ("sun" : String) ∈ ts)) →
      ∃ q, r ∈ (search_media dbEx ("alice") ("sun") q 20).1) :=
  search_media_characterisation dbEx ("alice") ("sun") 1 20 (by decide) (by decide)

/-- A record whose only hit for the term `sunset` is the differently-cased
tag `Sunset`. -/
def recTagsCase : MediaRecord :=
  { id := 9, mediaType := "image", userId := "u", originalFileName := "x",
    fileName := "u/x", mimeType := "image/jpeg", fileSize := 5,
    description := none, blobUrl := "https://blob.example/u/x",
    tags := some (["Sunset"]), thumbnailUrl := none, uploadedAt := 1, updatedAt := 1 }

/-- C3 fails on the code as stated: `sunset` is an exact case-insensitive
element of the tags of `recTagsCase` (tag and term lower to the same string),
the record is the owner's only record, yet the first full-size page is empty
and the match count is zero — the query's tag comparison is case-sensitive. -/
theorem search_media_tags_case_counterexample :
    sqlLower (("Sunset").data) = sqlLower (("sunset").data) ∧
    recTagsCase.tags = some (["Sunset"]) ∧
    search_media [recTagsCase] ("u") ("sunset") 1 20 = ([], 0) := by
  decide

/-! ## Claim C1 — cross-owner access (corrected: 404, not 403) -/

/-- C1 fails on the code as stated: `recA` is owned by `alice`, yet get,
update and delete of its id under the identity `bob` all yield 404 — the
partition-scoped lookup misses, so the 403 the claim demands is never
produced. -/
theorem cross_owner_counterexample :
    recA.userId = "alice" ∧
    fetch_media_details [recA] 1 ("bob") =
      .error { status := 404, detail := "Media not found" } ∧
    modify_media_info [recA] 1 { description := none, tags := none } ("bob") 9 =
      .error { status := 404, detail := "Media not found" } ∧
    remove_media_file [recA] 1 ("bob")
        { contentDeleteFails := false, thumbDeleteFails := false } =
      (404, [recA]) := by
  decide

/-- C1 (amended): get, update and delete on a record of owner A invoked with
identity B ≠ A fail with `NotFound` (404) and never succeed: the lookup is
scoped to B's partition and finds nothing (B owning no record with the same
id), so the 403 ownership branch is unreachable for cross-owner ids. -/
theorem cross_owner_yields_not_found (db : List MediaRecord) (r : MediaRecord)
    (b : String) (mu : ContentModification) (now : Nat) (env : DeleteEnv)
    (hmem : r ∈ db) (hb : r.userId ≠ b)
    (hnoid : ∀ x ∈ db, x.id = r.id → x.userId ≠ b) :
    fetch_media_details db r.id b =
      .error { status := 404, detail := "Media not found" } ∧
    modify_media_info db r.id mu b now =
      .error { status := 404, detail := "Media not found" } ∧
    remove_media_file db r.id b env = (404, db) := by
  have hg : get_media_by_id db r.id b = none := get_media_by_id_none hnoid
  refine ⟨?_, ?_, ?_⟩
  · unfold fetch_media_details
    rw [hg]
  · unfold modify_media_info
    rw [hg]
  · unfold remove_media_file
    rw [hg]

/-- Concrete instantiation of `cross_owner_yields_not_found`: `bob`
addressing `alice`'s record. -/
theorem cross_owner_yields_not_found_witness :
    fetch_media_details [recA] recA.id ("bob") =
      .error { status := 404, detail := "Media not found" } ∧
    modify_media_info [recA] recA.id { description := none, tags := none } ("bob") 9 =
      .error { status := 404, detail := "Media not found" } ∧
    remove_media_file [recA] recA.id ("bob")
        { contentDeleteFails := false, thumbDeleteFails := false } =
      (404, [recA]) :=
  cross_owner_yields_not_found [recA] recA ("bob") { description := none, tags := none } 9
    { contentDeleteFails := false, thumbDeleteFails := false }
    (by decide) (by decide) (by decide)

/-! ## Claim C2 — malformed tags on upload (corrected: non-array JSON → 500) -/

/-- C2 fails on the code as stated: the tags string of a valid JSON object
(for example the string of `\x7b\x7d`) is not an array, and the upload fails
with HTTP 500 — the `ValueError` raised after `json.loads` succeeds is not
caught by the `except json.JSONDecodeError` clause — rather than with the
400 invalid-tags error the claim demands.  No blob and no metadata write
occurs. -/
theorem upload_non_array_tags_counterexample :
    process_file_upload [] ("u") ("a.jpg") ("image/jpeg") 10 none
        (some (TagsParse.value Json.objVal)) false false 0 0 =
      { status := 500, record := none, db := [], blobs := [] } ∧
    (500 : Nat) ≠ 400 := by
  decide

/-- C2 (amended): for an upload that passes the type and size checks, a tags
string that is invalid JSON fails with the 400 invalid-tags error, while a
tags string that parses to a non-array JSON value fails with HTTP 500; in
both cases no blob write and no metadata write occurs. -/
theorem upload_bad_tags_no_writes (db : List MediaRecord)
    (currentUser filename mime : String) (size : Nat) (fileDescription : Option String)
    (fileTags : Option TagsParse) (thumbData thumbUploadOk : Bool) (freshId now : Nat)
    (contentType : String) (sizeInBytes : Nat)
    (hvt : validate_file_type mime = some contentType)
    (hvs : validate_file_size size = some sizeInBytes) :
    (fileTags = some TagsParse.decodeError →
      process_file_upload db currentUser filename mime size fileDescription fileTags
          thumbData thumbUploadOk freshId now =
        { status := 400, record := none, db := db, blobs := [] }) ∧
    (∀ j, fileTags = some (TagsParse.value j) → (∀ xs, j ≠ Json.arrVal xs) →
      process_file_upload db currentUser filename mime size fileDescription fileTags
          thumbData thumbUploadOk freshId now =
        { status := 500, record := none, db := db, blobs := [] }) := by
  constructor
  · intro ht
    subst ht
    unfold process_file_upload
    rw [hvt, hvs]
    rfl
  · intro j ht hja
    subst ht
    unfold process_file_upload
    rw [hvt, hvs]
    cases j with
    | null => rfl
    | boolVal b => rfl
    | numVal n => rfl
    | strVal s => rfl
    | arrVal xs => exact absurd rfl (hja xs)
    | objVal => rfl

/-- Concrete instantiation of `upload_bad_tags_no_writes`: an invalid-JSON
tags field fails with 400 and writes nothing. -/
theorem upload_bad_tags_no_writes_witness :
    process_file_upload dbEx ("u") ("a.jpg") ("image/jpeg") 10 none
        (some TagsParse.decodeError) true true 7 9 =
      { status := 400, record := none, db := dbEx, blobs := [] } :=
  (upload_bad_tags_no_writes dbEx ("u") ("a.jpg") ("image/jpeg") 10 none
    (some TagsParse.decodeError) true true 7 9 ("image") 10
    (by decide) (by decide)).1 rfl

/-! ## Claim C5 — delete and blob failures -/

/-- C5: for a delete request that found the owner's record, a content blob
deletion failure makes the whole operation fail with HTTP 500 and leaves the
metadata store unchanged; when only the thumbnail blob deletion fails, the
request still returns 204 and the metadata record is gone. -/
theorem delete_blob_failure_handling (db : List MediaRecord) (mediaId : Nat)
    (ownerId : String) (r : MediaRecord) (tf : Bool)
    (h : get_media_by_id db mediaId ownerId = some r) :
    remove_media_file db mediaId ownerId
        { contentDeleteFails := true, thumbDeleteFails := tf } = (500, db) ∧
    (remove_media_file db mediaId ownerId
        { contentDeleteFails := false, thumbDeleteFails := tf }).1 = 204 ∧
    get_media_by_id (remove_media_file db mediaId ownerId
        { contentDeleteFails := false, thumbDeleteFails := tf }).2 mediaId ownerId = none := by
  obtain ⟨hmem, hid, hown⟩ := get_media_by_id_some h
  refine ⟨?_, ?_, ?_⟩
  · simp [remove_media_file, h, hown]
  · simp [remove_media_file, h, hown]
  · have hdel : (remove_media_file db mediaId ownerId
        { contentDeleteFails := false, thumbDeleteFails := tf }).2
        = db.filter (fun x => !(x.id == mediaId && x.userId == ownerId)) := by
      simp [remove_media_file, delete_media, h, hown]
    rw [hdel]
    apply get_media_by_id_none
    intro x hx hxid hxo
    have h2 := (List.mem_filter.mp hx).2
    simp only [Bool.not_eq_eq_eq_not, Bool.not_true, Bool.and_eq_false_iff,
      beq_eq_false_iff_ne, ne_eq] at h2
    rcases h2 with h2 | h2
    · exact h2 hxid
    · exact h2 hxo

/-- Concrete instantiation of `delete_blob_failure_handling` on the
two-record container. -/
theorem delete_blob_failure_handling_witness :
    remove_media_file dbEx 1 ("alice")
        { contentDeleteFails := true, thumbDeleteFails := true } = (500, dbEx) ∧
    (remove_media_file dbEx 1 ("alice")
        { contentDeleteFails := false, thumbDeleteFails := true }).1 = 204 ∧
    get_media_by_id (remove_media_file dbEx 1 ("alice")
        { contentDeleteFails := false, thumbDeleteFails := true }).2 1 ("alice") = none :=
  delete_blob_failure_handling dbEx 1 ("alice") recA true (by decide)

/-! ## Claim C6 — update frame -/

/-- C6: a successful metadata update changes at most `description`, `tags`
and `updatedAt` of the stored record: the other nine fields are unchanged, a
patch field that is absent leaves the record field unchanged, a present one
overwrites it, and every other document in the container is untouched. -/
theorem modify_media_frame (db : List MediaRecord) (mediaId : Nat)
    (mu : ContentModification) (ownerId : String) (now : Nat)
    (r2 : MediaRecord) (db2 : List MediaRecord)
    (h : modify_media_info db mediaId mu ownerId now = .ok (r2, db2)) :
    ∃ r, get_media_by_id db mediaId ownerId = some r ∧
      r2.mediaType = r.mediaType ∧ r2.fileSize = r.fileSize ∧ r2.userId = r.userId ∧
      r2.originalFileName = r.originalFileName ∧ r2.fileName = r.fileName ∧
      r2.blobUrl = r.blobUrl ∧ r2.thumbnailUrl = r.thumbnailUrl ∧
      r2.mimeType = r.mimeType ∧ r2.uploadedAt = r.uploadedAt ∧
      r2.updatedAt = now ∧
      (mu.description = none → r2.description = r.description) ∧
      (mu.tags = none → r2.tags = r.tags) ∧
      (∀ d, mu.description = some d → r2.description = some d) ∧
      (∀ ts, mu.tags = some ts → r2.tags = some ts) ∧
      db2 = db.map (fun x => if x.id == mediaId && x.userId == ownerId then r2 else x) := by
  obtain ⟨cur, hg, hr2, hdb2⟩ := modify_media_info_ok h
  subst hr2
  refine ⟨cur, hg, rfl, rfl, rfl, rfl, rfl, rfl, rfl, rfl, rfl, rfl,
    ?_, ?_, ?_, ?_, hdb2⟩
  · intro h0
    simp [applyUpdate, h0]
  · intro h0
    simp [applyUpdate, h0]
  · intro d h0
    simp [applyUpdate, h0]
  · intro ts h0
    simp [applyUpdate, h0]

/-- The update payload used by the C6 witness: patch only the description. -/
def patchEx : UpdatePayload := { updatedAt := 9, description := some ("dawn"), tags := none }

/-- The patch request body matching `patchEx`. -/
def modsEx : ContentModification := { description := some ("dawn"), tags := none }

/-- `recA` after applying `patchEx`. -/
def recA2 : MediaRecord := applyUpdate recA patchEx

/-- The container after rewriting `recA` to `recA2`. -/
def dbEx2 : List MediaRecord :=
  dbEx.map (fun x => if x.id == 1 && x.userId == "alice" then recA2 else x)

/-- Concrete instantiation of `modify_media_frame`: patching only the
description of `recA`. -/
theorem modify_media_frame_witness :
    ∃ r, get_media_by_id dbEx 1 ("alice") = some r ∧
      recA2.mediaType = r.mediaType ∧ recA2.fileSize = r.fileSize ∧
      recA2.userId = r.userId ∧ recA2.originalFileName = r.originalFileName ∧
      recA2.fileName = r.fileName ∧ recA2.blobUrl = r.blobUrl ∧
      recA2.thumbnailUrl = r.thumbnailUrl ∧ recA2.mimeType = r.mimeType ∧
      recA2.uploadedAt = r.uploadedAt ∧ recA2.updatedAt = 9 ∧
      (modsEx.description = none → recA2.description = r.description) ∧
      (modsEx.tags = none → recA2.tags = r.tags) ∧
      (∀ d, modsEx.description = some d → recA2.description = some d) ∧
      (∀ ts, modsEx.tags = some ts → recA2.tags = some ts) ∧
      dbEx2 = dbEx.map (fun x => if x.id == 1 && x.userId == "alice" then recA2 else x) :=
  modify_media_frame dbEx 1 modsEx ("alice") 9 recA2 dbEx2 (by decide)

/-! ## Claim C9 — no account-existence leakage at login -/

/-- C9: a login whose email matches no account and a login with an existing
email but a rejected password produce identical responses — the same 401
status and the same error message — so the response does not reveal whether
the account exists. -/
theorem login_no_account_leakage (users : List UserRecord)
    (verifyPassword : String → String → Bool) (mkToken : String → String → String)
    (e1 p1 e2 p2 : String) (acct : UserRecord)
    (h1 : get_user_by_email users e1 = none)
    (h2 : get_user_by_email users e2 = some acct)
    (h3 : verifyPassword p2 acct.hashedPassword = false) :
    authenticate_user users verifyPassword mkToken e1 p1 =
      .error { status := 401, detail := "Invalid email or password" } ∧
    authenticate_user users verifyPassword mkToken e2 p2 =
      .error { status := 401, detail := "Invalid email or password" } ∧
    authenticate_user users verifyPassword mkToken e1 p1 =
      authenticate_user users verifyPassword mkToken e2 p2 := by
  have ha : authenticate_user users verifyPassword mkToken e1 p1 =
      .error { status := 401, detail := "Invalid email or password" } := by
    unfold authenticate_user
    rw [h1]
  have hb : authenticate_user users verifyPassword mkToken e2 p2 =
      .error { status := 401, detail := "Invalid email or password" } := by
    unfold authenticate_user
    rw [h2]
    simp [h3]
  exact ⟨ha, hb, ha.trans hb.symm⟩

/-- A registered account used by the login witness. -/
def userEx : UserRecord :=
  { id := "u1", email := "alice@example.com", username := "alice",
    hashedPassword := "h", createdAt := 0 }

/-- Concrete instantiation of `login_no_account_leakage`: unknown email
versus wrong password against the one-account store. -/
theorem login_no_account_leakage_witness :
    authenticate_user [userEx] (fun _ _ => false) (fun _ _ => "t")
        ("bob@example.com") ("pw") =
      .error { status := 401, detail := "Invalid email or password" } ∧
    authenticate_user [userEx] (fun _ _ => false) (fun _ _ => "t")
        ("alice@example.com") ("pw") =
      .error { status := 401, detail := "Invalid email or password" } ∧
    authenticate_user [userEx] (fun _ _ => false) (fun _ _ => "t")
        ("bob@example.com") ("pw") =
      authenticate_user [userEx] (fun _ _ => false) (fun _ _ => "t")
        ("alice@example.com") ("pw") :=
  login_no_account_leakage [userEx] (fun _ _ => false) (fun _ _ => "t")
    ("bob@example.com") ("pw") ("alice@example.com") ("pw") userEx
    (by decide) (by decide) rfl

/-! ## Claim C7 — fresh ids and timestamp invariants -/

/-- C7: in every reachable state, a successful upload returns a record whose
id differs from the id of every previously created record and whose
`uploadedAt` equals its `updatedAt`; every stored record satisfies
`updatedAt ≥ uploadedAt`; and no transition changes the `uploadedAt` of a
stored record, so `uploadedAt` stays as set at creation. -/
theorem upload_fresh_id_and_timestamps (s : Sys) (hreach : Reachable s) :
    (∀ currentUser filename mime size fileDescription fileTags thumbData thumbUploadOk r,
      (process_file_upload s.db currentUser filename mime size fileDescription fileTags
          thumbData thumbUploadOk s.nextId s.clock).record = some r →
      r.id ∉ s.created ∧ r.uploadedAt = r.updatedAt) ∧
    (∀ r ∈ s.db, r.uploadedAt ≤ r.updatedAt) ∧
    (∀ s2, Step s s2 → ∀ r ∈ s.db, ∀ r2 ∈ s2.db, r2.id = r.id →
      r2.uploadedAt = r.uploadedAt) := by
  obtain ⟨hcr, hdbc, htime, hnd⟩ := reachable_sysInv hreach
  refine ⟨?_, fun r hr => (htime r hr).1, ?_⟩
  · intro u f m sz d t tb tu r hrec
    rcases process_file_upload_cases s.db u f m sz d t tb tu s.nextId s.clock with
      ⟨hr0, _, _⟩ | ⟨r0, hr0, _, _, hid, hup, hupd, _⟩
    · rw [hr0] at hrec
      cases hrec
    · rw [hr0] at hrec
      injection hrec with he
      subst he
      constructor
      · intro hin
        have hlt := hcr _ hin
        rw [hid] at hlt
        exact absurd hlt (lt_irrefl _)
      · rw [hup, hupd]
  · intro s2 hstep r hr r2 hr2 hideq
    cases hstep with
    | upload currentUser filename mime size fileDescription fileTags thumbData thumbUploadOk =>
      rcases process_file_upload_cases s.db currentUser filename mime size fileDescription
          fileTags thumbData thumbUploadOk s.nextId s.clock with
        ⟨_, hdb, _⟩ | ⟨r0, _, _, hdb, hid, _, _, _⟩
      · simp only [stepUpload, hdb] at hr2
        rw [mediaRecord_eq_of_id_eq hnd hr2 hr hideq]
      · simp only [stepUpload, hdb] at hr2
        rcases List.mem_append.mp hr2 with hin | hin
        · rw [mediaRecord_eq_of_id_eq hnd hin hr hideq]
        · simp only [List.mem_singleton] at hin
          subst hin
          have h1 := hcr _ (hdbc r hr)
          rw [← hideq, hid] at h1
          exact absurd h1 (lt_irrefl _)
    | update mediaId metadataUpdates ownerId =>
      unfold stepUpdate at hr2
      cases hm : modify_media_info s.db mediaId metadataUpdates ownerId s.clock with
      | error e =>
        rw [hm] at hr2
        rw [mediaRecord_eq_of_id_eq hnd hr2 hr hideq]
      | ok p =>
        obtain ⟨rr, db2⟩ := p
        rw [hm] at hr2
        dsimp only at hr2
        obtain ⟨cur, hg, hrr, hdb2⟩ := modify_media_info_ok hm
        obtain ⟨hcurMem, hcurId, hcurOwn⟩ := get_media_by_id_some hg
        rw [hdb2] at hr2
        rcases List.mem_map.mp hr2 with ⟨y, hy, hyx⟩
        by_cases hcond : (y.id == mediaId && y.userId == ownerId) = true
        · rw [if_pos hcond] at hyx
          have h5 : r2 = applyUpdate cur
              { updatedAt := s.clock, description := metadataUpdates.description,
                tags := metadataUpdates.tags } := by
            rw [← hyx, hrr]
          have hidcur : r2.id = cur.id := by rw [h5]; rfl
          have hcureq : cur = r := by
            apply mediaRecord_eq_of_id_eq hnd hcurMem hr
            rw [← hidcur]
            exact hideq
          have hupcur : r2.uploadedAt = cur.uploadedAt := by rw [h5]; rfl
          rw [hupcur, hcureq]
        · rw [if_neg hcond] at hyx
          subst hyx
          rw [mediaRecord_eq_of_id_eq hnd hy hr hideq]
    | delete mediaId ownerId env =>
      unfold stepDelete at hr2
      rcases remove_media_file_db_cases s.db mediaId ownerId env with hcase | hcase <;>
        rw [hcase] at hr2
      · rw [mediaRecord_eq_of_id_eq hnd hr2 hr hideq]
      · rw [mediaRecord_eq_of_id_eq hnd (List.mem_of_mem_filter hr2) hr hideq]
    | tick c hcl =>
      rw [mediaRecord_eq_of_id_eq hnd hr2 hr hideq]

/-- A reachable one-upload state. -/
def sysEx : Sys :=
  stepUpload initSys ("alice") ("pic.jpg") ("image/jpeg") 100 none none true true

/-- `sysEx` is reachable. -/
theorem sysEx_reachable : Reachable sysEx :=
  Reachable.step Reachable.init
    (Step.upload initSys ("alice") ("pic.jpg") ("image/jpeg") 100 none none true true)

/-- Concrete instantiation of `upload_fresh_id_and_timestamps` at the
one-upload state. -/
theorem upload_fresh_id_and_timestamps_witness :
    (∀ currentUser filename mime size fileDescription fileTags thumbData thumbUploadOk r,
      (process_file_upload sysEx.db currentUser filename mime size fileDescription fileTags
          thumbData thumbUploadOk sysEx.nextId sysEx.clock).record = some r →
      r.id ∉ sysEx.created ∧ r.uploadedAt = r.updatedAt) ∧
    (∀ r ∈ sysEx.db, r.uploadedAt ≤ r.updatedAt) ∧
    (∀ s2, Step sysEx s2 → ∀ r ∈ sysEx.db, ∀ r2 ∈ s2.db, r2.id = r.id →
      r2.uploadedAt = r.uploadedAt) :=
  upload_fresh_id_and_timestamps sysEx sysEx_reachable

/-! ## Claim C8 — thumbnail key round-trip (corrected: fails for filenames
with a slash, and in general when the base name occurs elsewhere in the key) -/

/-- A slash-free string splits into the single segment it is. -/
theorem splitSlash_eq_of_no_slash (l : List Char) (h : '/' ∉ l) : splitSlash l = [l] := by
  induction l with
  | nil => rfl
  | cons c rest ih =>
    have hc : ¬ (c = '/') := by
      intro hc2
      exact h (by rw [← hc2]; exact List.mem_cons_self c rest)
    have hr : '/' ∉ rest := fun hm => h (List.mem_cons_of_mem _ hm)
    unfold splitSlash
    rw [ih hr]
    simp [hc]

/-- `replaceFuel` on a string that is one pattern occurrence preceded by
occurrence-free text replaces exactly that suffix. -/
theorem replaceFuel_single (pat rep : List Char) (hpat : pat ≠ []) :
    ∀ (v : List Char) (fuel : Nat), (v ++ pat).length ≤ fuel →
      (∀ i, i < v.length → ¬ (List.isPrefixOf pat ((v ++ pat).drop i) = true)) →
      replaceFuel pat rep fuel (v ++ pat) = v ++ rep := by
  intro v
  induction v with
  | nil =>
    intro fuel hf hocc
    rcases pat with _ | ⟨c, rest⟩
    · exact absurd rfl hpat
    · rcases fuel with _ | f
      · simp at hf
      · simp only [List.nil_append]
        have hpre : List.isPrefixOf (c :: rest) (c :: rest) = true :=
          List.isPrefixOf_iff_prefix.mpr (List.prefix_refl _)
        simp only [replaceFuel, hpre, if_true]
        rw [List.drop_length]
        simp [replaceFuel]
  | cons a v ih =>
    intro fuel hf hocc
    rcases fuel with _ | f
    · simp at hf
    · have hnp : ¬ (List.isPrefixOf pat (a :: (v ++ pat)) = true) := by
        have h0 := hocc 0 (by simp)
        simpa using h0
      have hlen : (v ++ pat).length ≤ f := by
        simp only [List.cons_append, List.length_cons] at hf
        omega
      have hocc2 : ∀ i, i < v.length →
          ¬ (List.isPrefixOf pat ((v ++ pat).drop i) = true) := by
        intro i hi
        have h0 := hocc (i + 1) (by simp only [List.length_cons]; omega)
        simpa using h0
      simp only [List.cons_append, replaceFuel, List.append_eq]
      rw [if_neg hnp, ih f hlen hocc2]

/-- `pyReplace` on a string that ends in its single pattern occurrence. -/
theorem pyReplace_single (v pat rep : List Char) (hpat : pat ≠ [])
    (hocc : ∀ i, i < v.length → ¬ (List.isPrefixOf pat ((v ++ pat).drop i) = true)) :
    pyReplace (v ++ pat) pat rep = v ++ rep := by
  unfold pyReplace
  rw [if_neg (by simpa [List.isEmpty_iff] using hpat)]
  exact replaceFuel_single pat rep hpat v (v ++ pat).length le_rfl hocc

/-- The character data of a blob key. -/
theorem blobKey_data (u f : String) :
    (blobKey u f).data = (u.data ++ ['/']) ++ f.data := by
  unfold blobKey
  rw [String.data_append, String.data_append]

/-- A string is determined by its character data. -/
theorem string_eq_of_data (l : List Char) (s : String) (h : s.data = l) :
    String.mk l = s := by
  cases s
  cases h
  rfl

/-- A successful image upload with a generated thumbnail persists exactly
this record and writes exactly the content blob key followed by the
`thumb_`-prefixed thumbnail blob key. -/
theorem process_file_upload_thumb_fields (db : List MediaRecord) (u f : String)
    (size : Nat) (d : Option String) (t : Option TagsParse) (freshId now : Nat)
    (sz : Nat) (tags : Option (List String))
    (hvs : validate_file_size size = some sz) (hpt : parseTags t = .ok tags) :
    (process_file_upload db u f ("image/jpeg") size d t true true freshId now).record =
      some { id := freshId, mediaType := "image", userId := u, originalFileName := f,
             fileName := blobKey u f, mimeType := "image/jpeg", fileSize := sz,
             description := d, blobUrl := blobUrlOf (blobKey u f), tags := tags,
             thumbnailUrl := some (blobUrlOf (blobKey u (("thumb_" : String) ++ f))),
             uploadedAt := now, updatedAt := now } ∧
    (process_file_upload db u f ("image/jpeg") size d t true true freshId now).blobs =
      [blobKey u f, blobKey u (("thumb_" : String) ++ f)] := by
  have hvt : validate_file_type ("image/jpeg") = some ("image") := rfl
  unfold process_file_upload
  rw [hvt, hvs, hpt]
  exact ⟨rfl, rfl⟩

/-- C8 (amended): for an image upload with a thumbnail whose original
filename is nonempty, has no slash, and occurs inside the stored blob key
only as the final segment, the thumbnail blob key recomputed at delete time
equals the key the thumbnail was stored under at upload time.  (Without
those conditions the claim fails; see the counterexample.) -/
theorem thumb_key_roundtrip (db : List MediaRecord) (u f : String)
    (size : Nat) (d : Option String) (t : Option TagsParse) (freshId now : Nat)
    (sz : Nat) (tags : Option (List String))
    (hvs : validate_file_size size = some sz) (hpt : parseTags t = .ok tags)
    (hne : f.data ≠ []) (hns : '/' ∉ f.data)
    (hocc : ∀ i, i < (u.data ++ ['/']).length →
      ¬ (List.isPrefixOf f.data (((u.data ++ ['/']) ++ f.data).drop i) = true))
    (r : MediaRecord)
    (hr : (process_file_upload db u f ("image/jpeg") size d t true true freshId now).record
      = some r) :
    thumbIdentifier r = blobKey u (("thumb_" : String) ++ f) ∧
    blobKey u (("thumb_" : String) ++ f) ∈
      (process_file_upload db u f ("image/jpeg") size d t true true freshId now).blobs := by
  obtain ⟨hrec, hblobs⟩ :=
    process_file_upload_thumb_fields db u f size d t freshId now sz tags hvs hpt
  rw [hrec] at hr
  injection hr with hr
  subst hr
  constructor
  · show String.mk (pyReplace (blobKey u f).data (lastComponent f.data)
      ((("thumb_").data ++ lastComponent f.data))) = blobKey u (("thumb_" : String) ++ f)
    have hbase : lastComponent f.data = f.data := by
      unfold lastComponent
      rw [splitSlash_eq_of_no_slash f.data hns]
      rfl
    rw [hbase, blobKey_data]
    rw [pyReplace_single (u.data ++ ['/']) f.data (("thumb_").data ++ f.data) hne hocc]
    apply string_eq_of_data
    rw [blobKey_data, String.data_append]
  · rw [hblobs]
    simp

/-- C8 fails on the code as stated: for the original filename `a/b` the
thumbnail is stored under `u/thumb_a/b`, but the delete-time derivation
substitutes only the base component `b` and computes `u/a/thumb_b` — a
different key, so the stored thumbnail blob would never be deleted. -/
theorem thumb_key_roundtrip_counterexample :
    ((process_file_upload [] ("u") ("a/b") ("image/jpeg") 10 none none true true 0 0).record.map
        thumbIdentifier) = some ("u/a/thumb_b") ∧
    (process_file_upload [] ("u") ("a/b") ("image/jpeg") 10 none none true true 0 0).blobs =
      [("u/a/b" : String), ("u/thumb_a/b" : String)] ∧
    ("u/a/thumb_b" : String) ≠ ("u/thumb_a/b" : String) := by
  decide

/-- The record persisted by the C8 witness upload. -/
def recThumbEx : MediaRecord :=
  { id := 0, mediaType := "image", userId := "u1", originalFileName := "pic.jpg",
    fileName := blobKey ("u1") ("pic.jpg"), mimeType := "image/jpeg", fileSize := 10,
    description := none, blobUrl := blobUrlOf (blobKey ("u1") ("pic.jpg")), tags := none,
    thumbnailUrl := some (blobUrlOf (blobKey ("u1") (("thumb_" : String) ++ ("pic.jpg")))),
    uploadedAt := 0, updatedAt := 0 }

/-- Concrete instantiation of `thumb_key_roundtrip`: the round trip holds
for the slash-free filename `pic.jpg` under owner `u1`. -/
theorem thumb_key_roundtrip_witness :
    thumbIdentifier recThumbEx = blobKey ("u1") (("thumb_" : String) ++ ("pic.jpg")) ∧
    blobKey ("u1") (("thumb_" : String) ++ ("pic.jpg")) ∈
      (process_file_upload [] ("u1") ("pic.jpg") ("image/jpeg") 10 none none true true 0 0).blobs :=
  thumb_key_roundtrip [] ("u1") ("pic.jpg") 10 none none 0 0 10 none
    (by decide) rfl (by decide) (by decide) (by decide) recThumbEx (by decide)

end Zjw
